import Mathlib

/-!
Shallow embedding of the hook engine for functional components found in
src/crates/functional/src/lib.rs (a yew fork).  Pure Rust data is translated
to plain Lean data; the `Rc<RefCell<dyn Any>>` slot cells are modelled as
entries of the frame's append-only slot list, with a cell's identity given by
its (stable) index, exactly as suggested by the engine's own arena reading:
slots are only ever appended and updated in place, never removed or reordered,
so an index addresses the same cell for the whole instance lifetime.  Panics
(`expect`, `unwrap`, out-of-bounds indexing) are modelled as `Except.error`
carrying the panic message.  The host bridge `link.send_message` is modelled
by returning the boxed deferred mutation to the host, which appends it to the
instance's queue (`send_message`), per the host contract: mutations run later,
exactly once, in enqueue order.
-/

namespace YewHooks

/-- Models the Rust `Any`/`TypeId` downcast contract for one concrete inner
type `σ` erased into the payload type `Any` of a slot cell: `inj` erases a
typed hook state (the implicit boxing into `dyn Any`), `proj` is
`downcast_mut::<σ>` and yields `none` on a `TypeId` mismatch, and a downcast
immediately after erasure at the same type always succeeds (`proj_inj`). -/
structure TypeRep (Any : Type) (σ : Type) where
  inj : σ → Any
  proj : Any → Option σ
  proj_inj : ∀ s, proj (inj s) = some s

/-- The per-instance render frame `HookState` of lib.rs: the hook-position
counter and the ordered, append-only slot list.  The `process_message`
dispatch handle is modelled by returning enqueued mutations to the host. -/
structure HookState (Any : Type) where
  counter : Nat
  hooks : List Any

/-- One queued unit of work (Rust `Box<dyn FnOnce() -> bool>` sent through the
link): it targets the captured slot cell (identified by its stable index) and,
when the host later runs it, transforms the cell and reports whether a
re-render is warranted. -/
structure DeferredMutation (Any : Type) where
  slotIdx : Nat
  run_msg : Any → Except String (Any × Bool)

/-- The boxed message built inside `use_hook`'s `trigger`: when run it
re-resolves the captured slot, downcasts it to the caller's internal state
type (a fatal error on mismatch, as in lib.rs line 400-403), applies the
`pretrigger_change`, writes the state back, and returns its re-render flag. -/
def mkMessage {Any σ : Type} (rep : TypeRep Any σ) (idx : Nat)
    (pretrigger_change : σ → σ × Bool) : DeferredMutation Any :=
  { slotIdx := idx
    run_msg := fun a =>
      match rep.proj a with
      | none => .error "Incompatible hook type. Hooks must always be called in the same order"
      | some s =>
        let r := pretrigger_change s
        .ok (rep.inj r.1, r.2) }

/-- The primitive hook registrar `use_hook` (lib.rs lines 361-416).  Reads the
currently bound frame (fatal if none), takes the counter as the hook position
and increments it, appends a freshly initialized slot when the position is
past the end of the slot list, downcasts the resolved slot (fatal on
mismatch), builds the `trigger` bound to this exact slot, and runs the hook
runner.  The runner receives the typed slot state and the trigger; it returns
the new slot state (Rust mutates it through `&mut`), its result, and the
mutations it enqueued by calling the trigger during the render. -/
def use_hook {Any σ R : Type} (rep : TypeRep Any σ)
    (hook_runner : σ → ((σ → σ × Bool) → DeferredMutation Any) → σ × R × List (DeferredMutation Any))
    (initial_state_producer : Unit → σ)
    (cur : Option (HookState Any)) :
    Except String (R × HookState Any × List (DeferredMutation Any)) :=
  match cur with
  | none => .error "No current hook. Hooks can only be called inside functional components"
  | some hook_state =>
    let hook_pos := hook_state.counter
    let hooks1 :=
      if hook_pos ≥ hook_state.hooks.length then
        hook_state.hooks ++ [rep.inj (initial_state_producer ())]
      else hook_state.hooks
    match hooks1[hook_pos]? with
    | none => .error "index out of bounds"
    | some slot =>
      match rep.proj slot with
      | none => .error "Incompatible hook type. Hooks must always be called in the same order"
      | some s =>
        let out := hook_runner s (mkMessage rep hook_pos)
        .ok (out.2.1,
             { counter := hook_pos + 1, hooks := hooks1.set hook_pos (rep.inj out.1) },
             out.2.2)

/-- Internal slot state of `use_ref`: the shared `Rc<RefCell<T>>` cell itself,
modelled as an abstract cell type `RC`; `rcNew` models
`Rc::new(RefCell::new(...))`.  The runner returns the cell unchanged and
never invokes its trigger (the `_ignored` closure of lib.rs line 102). -/
def use_ref {Any RC T : Type} (rep : TypeRep Any RC) (rcNew : T → RC)
    (initial_value : Unit → T) (cur : Option (HookState Any)) :
    Except String (RC × HookState Any × List (DeferredMutation Any)) :=
  use_hook rep
    (fun state _pretrigger_change_acceptor => (state, state, []))
    (fun _ => rcNew (initial_value ()))
    cur

/-- Internal slot state of `use_reducer`: the current state behind its `Rc`. -/
structure UseReducerState (S : Type) where
  current_state : S

/-- `use_reducer_with_init` (lib.rs lines 119-156): the slot holds the current
state; the returned dispatch enqueues, per action, a deferred mutation that
applies the reducer to whatever state the slot holds when the mutation runs,
and always reports that a re-render is warranted. -/
def use_reducer_with_init {Any S Act I : Type} (rep : TypeRep Any (UseReducerState S))
    (reducer : S → Act → S) (initial_state : I) (init : I → S)
    (cur : Option (HookState Any)) :
    Except String ((S × (Act → DeferredMutation Any)) × HookState Any × List (DeferredMutation Any)) :=
  use_hook rep
    (fun internal_hook_change pretrigger_change_runner =>
      (internal_hook_change,
       (internal_hook_change.current_state,
        fun action =>
          pretrigger_change_runner
            (fun ihc => ({ current_state := reducer ihc.current_state action }, true))),
       []))
    (fun _ => { current_state := init initial_state })
    cur

/-- `use_reducer` (lib.rs lines 109-117): `use_reducer_with_init` with the
identity initializer. -/
def use_reducer {Any S Act : Type} (rep : TypeRep Any (UseReducerState S))
    (reducer : S → Act → S) (initial_state : S) (cur : Option (HookState Any)) :
    Except String ((S × (Act → DeferredMutation Any)) × HookState Any × List (DeferredMutation Any)) :=
  use_reducer_with_init rep reducer initial_state (fun a => a) cur

/-- Internal slot state of `use_state`: the current value behind its `Rc`. -/
structure UseStateState (T : Type) where
  current : T

/-- `use_state` (lib.rs lines 158-183): returns the current value and a setter
whose deferred mutation replaces the slot value outright with the new value
and always reports that a re-render is warranted. -/
def use_state {Any T : Type} (rep : TypeRep Any (UseStateState T))
    (initial_state_fn : Unit → T) (cur : Option (HookState Any)) :
    Except String ((T × (T → DeferredMutation Any)) × HookState Any × List (DeferredMutation Any)) :=
  use_hook rep
    (fun prev hook_update =>
      (prev,
       (prev.current,
        fun o => hook_update (fun _state => ({ current := o }, true))),
       []))
    (fun _ => { current := initial_state_fn () })
    cur

/-- Internal slot state of the five-dependency effect engine: the stored
dependency snapshots and the optional active cleanup (destructor). -/
structure UseEffectState (T1 T2 T3 T4 T5 C : Type) where
  o1 : T1
  o2 : T2
  o3 : T3
  o4 : T4
  o5 : T5
  destructor : Option C

/-- The body of `use_effect5`'s hook runner (lib.rs lines 310-343), as a pure
function.  The callback is modelled by the cleanup value it would return;
output components: the new slot state, the final `should_update` flag (true
exactly when the callback was invoked this render), and the list of stored
cleanups that were run (taken and executed before the callback fires). -/
def useEffect5Runner {T1 T2 T3 T4 T5 C : Type}
    [DecidableEq T1] [DecidableEq T2] [DecidableEq T3] [DecidableEq T4] [DecidableEq T5]
    (callback : T1 → T2 → T3 → T4 → T5 → C)
    (o1 : T1) (o2 : T2) (o3 : T3) (o4 : T4) (o5 : T5)
    (state : UseEffectState T1 T2 T3 T4 T5 C) :
    UseEffectState T1 T2 T3 T4 T5 C × Bool × List C :=
  let should_update :=
    ! decide (state.o1 = o1 ∧ state.o2 = o2 ∧ state.o3 = o3 ∧ state.o4 = o4 ∧ state.o5 = o5)
  if should_update then
    let ran := match state.destructor with
      | some de => [de]
      | none => []
    let new_destructor := callback o1 o2 o3 o4 o5
    ({ o1 := o1, o2 := o2, o3 := o3, o4 := o4, o5 := o5, destructor := some new_destructor },
     true, ran)
  else if state.destructor.isNone then
    let new_destructor := callback state.o1 state.o2 state.o3 state.o4 state.o5
    ({ state with destructor := some new_destructor }, true, [])
  else
    (state, false, [])

/-- `use_effect5` (lib.rs lines 275-359).  The initializer stores the first
dependency snapshots with no active cleanup; the runner is
`useEffect5Runner`; the closure returned by the runner is invoked immediately
after `use_hook` returns and, exactly when `should_update` is set, enqueues
one deferred mutation that leaves the slot untouched and returns `true`.
Result: `((should_update, cleanups run), new frame, enqueued mutations)`. -/
def use_effect5 {Any T1 T2 T3 T4 T5 C : Type}
    [DecidableEq T1] [DecidableEq T2] [DecidableEq T3] [DecidableEq T4] [DecidableEq T5]
    (rep : TypeRep Any (UseEffectState T1 T2 T3 T4 T5 C))
    (callback : T1 → T2 → T3 → T4 → T5 → C)
    (o1 : T1) (o2 : T2) (o3 : T3) (o4 : T4) (o5 : T5)
    (cur : Option (HookState Any)) :
    Except String ((Bool × List C) × HookState Any × List (DeferredMutation Any)) :=
  match use_hook rep
      (fun state hook_update =>
        let out := useEffect5Runner callback o1 o2 o3 o4 o5 state
        (out.1,
         (out.2.1, out.2.2, if out.2.1 then [hook_update (fun s => (s, true))] else []),
         []))
      (fun _ => { o1 := o1, o2 := o2, o3 := o3, o4 := o4, o5 := o5, destructor := none })
      cur with
  | .error e => .error e
  | .ok (r, st, msgs) => .ok ((r.1, r.2.1), st, msgs ++ r.2.2)

/-- The component wrapper `FunctionComponent` of lib.rs: stored properties and
the parked frame (`RefCell<Option<HookState>>`); the frame is `none` exactly
while it is swapped into the current-frame binding during a render. -/
structure FunctionComponent (P Any : Type) where
  props : P
  hook_state : Option (HookState Any)

/-- `Component::create` (lib.rs lines 35-45): fresh frame with counter 0 and
an empty slot list. -/
def create {P Any : Type} (props : P) : FunctionComponent P Any :=
  { props := props, hook_state := some { counter := 0, hooks := [] } }

/-- Runs one queued deferred mutation against the instance's slot list: the
message re-borrows its captured cell and transforms it.  The cell always
exists (slots are never removed while any trigger referencing them lives);
the impossible missing-slot case is mapped to an error. -/
def runMutation {Any : Type} (hooks : List Any) (m : DeferredMutation Any) :
    Except String (List Any × Bool) :=
  match hooks[m.slotIdx]? with
  | none => .error "hook slot missing"
  | some a =>
    match m.run_msg a with
    | .error e => .error e
    | .ok (a', b) => .ok (hooks.set m.slotIdx a', b)

/-- `Component::update` (lib.rs lines 47-49): executes one queued message
against the instance and returns the message's re-render flag. -/
def update {P Any : Type} (comp : FunctionComponent P Any) (msg : DeferredMutation Any) :
    Except String (FunctionComponent P Any × Bool) :=
  match comp.hook_state with
  | none => .error "hook state unavailable"
  | some st =>
    match runMutation st.hooks msg with
    | .error e => .error e
    | .ok (hooks', b) => .ok ({ comp with hook_state := some { st with hooks := hooks' } }, b)

/-- `Component::change` (lib.rs lines 51-55): swaps the new properties into
the component, then returns `props == self.props`, i.e. the result of the
EQUALITY comparison between the old and the new properties. -/
def change {P Any : Type} [DecidableEq P] (comp : FunctionComponent P Any) (props : P) :
    FunctionComponent P Any × Bool :=
  ({ comp with props := props }, decide (comp.props = props))

/-- The host bridge enqueue (`link.send_message`): appends one deferred
mutation to the instance's queue, in order. -/
def send_message {Any : Type} (queue : List (DeferredMutation Any))
    (msg : DeferredMutation Any) : List (DeferredMutation Any) :=
  queue ++ [msg]

/-- Invoking a trigger/setter/dispatch from outside a render (e.g. an event
handler): the Rust trigger body only calls `process_message` with the boxed
mutation, so the component is untouched and the queue grows by one. -/
def invokeTrigger {P Any : Type} (comp : FunctionComponent P Any)
    (queue : List (DeferredMutation Any)) (msg : DeferredMutation Any) :
    FunctionComponent P Any × List (DeferredMutation Any) :=
  (comp, send_message queue msg)

/-- Runs the host's commit phase on a queue of deferred mutations, strictly in
enqueue order, returning the final slot list and each mutation's flag. -/
def commitQueue {Any : Type} (hooks : List Any) :
    List (DeferredMutation Any) → Except String (List Any × List Bool)
  | [] => .ok (hooks, [])
  | m :: rest =>
    match runMutation hooks m with
    | .error e => .error e
    | .ok (hooks1, b) =>
      match commitQueue hooks1 rest with
      | .error e => .error e
      | .ok (hooks2, bs) => .ok (hooks2, b :: bs)

/-- The frame-binding prologue of `view` (lib.rs lines 58-75): reset the
counter of the instance's parked frame (`as_mut().unwrap()` panics when the
frame is currently vacated, i.e. this instance is already mid-render), then
swap it with the current-frame binding.  Returns the new binding and the new
parked value (the previous binding). -/
def viewBind {Any : Type} (current own : Option (HookState Any)) :
    Except String (Option (HookState Any) × Option (HookState Any)) :=
  match own with
  | none => .error "called Option::unwrap() on a None value"
  | some st => .ok (some { st with counter := 0 }, current)

/-- The frame-unbinding epilogue of `view` (lib.rs lines 80-88): swap the
current binding and the parked value back. -/
def viewUnbind {Any : Type} (current own : Option (HookState Any)) :
    Option (HookState Any) × Option (HookState Any) :=
  (own, current)

/-- `FunctionComponent::view` (lib.rs lines 58-91): bind the instance's frame,
run the user render function against the current binding (it threads the
binding because its hook calls read and write it), unbind, and return the
produced value, the restored binding, the updated instance, and the mutations
enqueued during the render. -/
def view {P Any A : Type}
    (run : Option (HookState Any) → Except String (A × Option (HookState Any) × List (DeferredMutation Any)))
    (current : Option (HookState Any)) (comp : FunctionComponent P Any) :
    Except String (A × Option (HookState Any) × FunctionComponent P Any × List (DeferredMutation Any)) :=
  match viewBind current comp.hook_state with
  | .error e => .error e
  | .ok (c1, own1) =>
    match run c1 with
    | .error e => .error e
    | .ok (a, c2, msgs) =>
      let r := viewUnbind c2 own1
      .ok (a, r.1, { comp with hook_state := r.2 }, msgs)

/-- A render body that performs no hook calls. -/
def trivialRun {Any : Type} :
    Option (HookState Any) → Except String (Unit × Option (HookState Any) × List (DeferredMutation Any)) :=
  fun cur => .ok ((), cur, [])

/-- A render of instance A whose body synchronously renders instance B (a
nested render of a different component instance): the inner `view` binds B's
frame while A's frame is the active binding. -/
def nestedRender {P Any : Type} (current : Option (HookState Any))
    (compA compB : FunctionComponent P Any) :
    Except String (FunctionComponent P Any × Option (HookState Any) × FunctionComponent P Any × List (DeferredMutation Any)) :=
  match view (fun c1 =>
      match view trivialRun c1 compB with
      | .error e => .error e
      | .ok (_, c3, cB, m2) => .ok (cB, c3, m2)) current compA with
  | .error e => .error e
  | .ok (compB', c4, compA', msgs) => .ok (compA', c4, compB', msgs)

/-- One abstract hook call of a render body: its internal state type, the
type representation used for the slot downcast, its initializer, and the
state transformation its runner performs. -/
structure HookCallDesc (Any : Type) : Type 1 where
  StateTy : Type
  rep : TypeRep Any StateTy
  init : Unit → StateTy
  step : StateTy → StateTy

/-- Runs one abstract hook call through `use_hook` and observes, via the slot
index captured by the trigger handed to the runner, which slot the call
resolved to. -/
def probeCall {Any : Type} (d : HookCallDesc Any) (cur : Option (HookState Any)) :
    Except String (Nat × HookState Any) :=
  match use_hook d.rep
      (fun s trig => (d.step s, (trig (fun x => (x, false))).slotIdx, []))
      d.init cur with
  | .error e => .error e
  | .ok (idx, st', _) => .ok (idx, st')

/-- Runs a render body consisting of a sequence of abstract hook calls against
a bound frame, collecting the slot index each call resolved to. -/
def probeCalls {Any : Type} : List (HookCallDesc Any) → HookState Any →
    Except String (HookState Any × List Nat)
  | [], st => .ok (st, [])
  | d :: rest, st =>
    match probeCall d (some st) with
    | .error e => .error e
    | .ok (idx, st1) =>
      match probeCalls rest st1 with
      | .error e => .error e
      | .ok (stf, log) => .ok (stf, idx :: log)

/-- One render step of the effect engine at a slot, with the five dependency
values bundled as a tuple. -/
def effectStep {T1 T2 T3 T4 T5 C : Type}
    [DecidableEq T1] [DecidableEq T2] [DecidableEq T3] [DecidableEq T4] [DecidableEq T5]
    (cb : T1 → T2 → T3 → T4 → T5 → C) (d : T1 × T2 × T3 × T4 × T5)
    (s : UseEffectState T1 T2 T3 T4 T5 C) :
    UseEffectState T1 T2 T3 T4 T5 C × Bool × List C :=
  useEffect5Runner cb d.1 d.2.1 d.2.2.1 d.2.2.2.1 d.2.2.2.2 s

/-- Iterates the effect engine over consecutive renders with dependency tuples
`ds`, using the callback `cbs i` in render `i`; returns the final slot state
and, per render, whether the callback fired and which cleanups were run. -/
def effectTrace {T1 T2 T3 T4 T5 C : Type}
    [DecidableEq T1] [DecidableEq T2] [DecidableEq T3] [DecidableEq T4] [DecidableEq T5]
    (cbs : Nat → T1 → T2 → T3 → T4 → T5 → C) (i : Nat)
    (s : UseEffectState T1 T2 T3 T4 T5 C) :
    List (T1 × T2 × T3 × T4 × T5) →
    UseEffectState T1 T2 T3 T4 T5 C × List (Bool × List C)
  | [] => (s, [])
  | d :: rest =>
    let out := effectStep (cbs i) d s
    let tl := effectTrace cbs (i + 1) out.1 rest
    (tl.1, (out.2.1, out.2.2) :: tl.2)

/-- Per-render expected firing pattern: the callback is expected to fire in a
render exactly when its dependency tuple differs from the previous one. -/
def changedFlags {D : Type} [DecidableEq D] : D → List D → List Bool
  | _, [] => []
  | prev, d :: rest => decide (d ≠ prev) :: changedFlags d rest

/-- A concrete erased payload for witnesses: either a `use_state` slot over
`Int` or an unrelated boolean payload. -/
def sumStateRep : TypeRep (Int ⊕ Bool) (UseStateState Int) where
  inj := fun s => Sum.inl s.current
  proj := fun a =>
    match a with
    | Sum.inl n => some { current := n }
    | Sum.inr _ => none
  proj_inj := fun _ => rfl

/-! ## Helper lemmas -/

lemma getElem_append_cons {α : Type} (pre : List α) (x : α) (t : List α) :
    (pre ++ x :: t)[pre.length]? = some x := by
  induction pre with
  | nil => simp
  | cons a l ih => simpa using ih

lemma set_append_cons {α : Type} (pre : List α) (x y : α) (t : List α) :
    (pre ++ x :: t).set pre.length y = pre ++ y :: t := by
  induction pre with
  | nil => rfl
  | cons a l ih => simp [ih]

lemma get_total_append_cons {α : Type} (pre : List α) (x : α) (t : List α)
    (h : pre.length < (pre ++ x :: t).length) :
    (pre ++ x :: t)[pre.length] = x := by
  have h2 := getElem_append_cons pre x t
  rw [List.getElem?_eq_some] at h2
  exact h2.choose_spec

/-- A probed hook call on a frame whose counter sits exactly at the end of the
slot list appends one freshly initialized slot there and resolves to it. -/
lemma probeCall_fresh {Any : Type} (d : HookCallDesc Any) (pre : List Any) :
    probeCall d (some { counter := pre.length, hooks := pre })
      = .ok (pre.length,
          { counter := pre.length + 1, hooks := pre ++ [d.rep.inj (d.step (d.init ()))] }) := by
  have hg : (pre ++ [d.rep.inj (d.init ())])[pre.length]? = some (d.rep.inj (d.init ())) :=
    getElem_append_cons pre _ []
  simp [probeCall, use_hook, mkMessage, hg, d.rep.proj_inj, set_append_cons pre _ _ []]

/-- A probed hook call on a frame whose counter points at an existing,
type-compatible slot reuses that slot in place: no append, the runner's state
transformation is written back at the same index. -/
lemma probeCall_existing {Any : Type} (d : HookCallDesc Any) (pre : List Any)
    (v : d.StateTy) (t : List Any) :
    probeCall d (some { counter := pre.length, hooks := pre ++ d.rep.inj v :: t })
      = .ok (pre.length,
          { counter := pre.length + 1, hooks := pre ++ d.rep.inj (d.step v) :: t }) := by
  have hlen : ¬ (pre.length ≥ (pre ++ d.rep.inj v :: t).length) := by
    simp only [List.length_append, List.length_cons]
    omega
  simp [probeCall, use_hook, mkMessage, hlen, getElem_append_cons, get_total_append_cons,
        d.rep.proj_inj, set_append_cons]

/-- First render of a call sequence on a fresh suffix: every call appends its
slot at the end and the resolved indices are consecutive from the counter. -/
lemma probeCalls_fresh {Any : Type} (ds : List (HookCallDesc Any)) :
    ∀ (pre : List Any),
      probeCalls ds { counter := pre.length, hooks := pre }
        = .ok ({ counter := pre.length + ds.length,
                 hooks := pre ++ ds.map (fun d => d.rep.inj (d.step (d.init ()))) },
               List.range' pre.length ds.length) := by
  induction ds with
  | nil => intro pre; simp [probeCalls, List.range']
  | cons d rest ih =>
    intro pre
    have ih1 := ih (pre ++ [d.rep.inj (d.step (d.init ()))])
    simp only [List.length_append, List.length_cons, List.length_nil, Nat.zero_add,
               List.append_assoc, List.singleton_append] at ih1
    have harith : pre.length + 1 + rest.length = pre.length + (rest.length + 1) := by omega
    simp [probeCalls, probeCall_fresh, ih1, harith, List.range']

/-- Re-render of a call sequence over slots laid down by a previous render
with the same sequence: every call reuses the existing slot at its own index,
nothing is appended, and the resolved indices are the same consecutive run. -/
lemma probeCalls_existing {Any : Type} (ds : List (HookCallDesc Any)) :
    ∀ (g : (d : HookCallDesc Any) → d.StateTy) (pre : List Any),
      probeCalls ds { counter := pre.length,
                      hooks := pre ++ ds.map (fun d => d.rep.inj (g d)) }
        = .ok ({ counter := pre.length + ds.length,
                 hooks := pre ++ ds.map (fun d => d.rep.inj (d.step (g d))) },
               List.range' pre.length ds.length) := by
  induction ds with
  | nil => intro g pre; simp [probeCalls, List.range']
  | cons d rest ih =>
    intro g pre
    have ih1 := ih g (pre ++ [d.rep.inj (d.step (g d))])
    simp only [List.length_append, List.length_cons, List.length_nil, Nat.zero_add,
               List.append_assoc, List.singleton_append] at ih1
    have harith : pre.length + 1 + rest.length = pre.length + (rest.length + 1) := by omega
    simp only [List.map_cons] at ih1 ⊢
    simp [probeCalls, probeCall_existing, ih1, harith, List.range']

/-- One effect render at a slot with an active cleanup: fires exactly when the
dependency tuple changed; on a firing the stored cleanup is the one run, the
snapshots become the new tuple and the fresh cleanup becomes active. -/
lemma effectStep_some {T1 T2 T3 T4 T5 C : Type}
    [DecidableEq T1] [DecidableEq T2] [DecidableEq T3] [DecidableEq T4] [DecidableEq T5]
    (cb : T1 → T2 → T3 → T4 → T5 → C) (d : T1 × T2 × T3 × T4 × T5)
    (x1 : T1) (x2 : T2) (x3 : T3) (x4 : T4) (x5 : T5) (c : C) :
    effectStep cb d { o1 := x1, o2 := x2, o3 := x3, o4 := x4, o5 := x5, destructor := some c }
      = if d = (x1, x2, x3, x4, x5) then
          ({ o1 := x1, o2 := x2, o3 := x3, o4 := x4, o5 := x5, destructor := some c }, false, [])
        else
          ({ o1 := d.1, o2 := d.2.1, o3 := d.2.2.1, o4 := d.2.2.2.1, o5 := d.2.2.2.2,
             destructor := some (cb d.1 d.2.1 d.2.2.1 d.2.2.2.1 d.2.2.2.2) }, true, [c]) := by
  by_cases h : d = (x1, x2, x3, x4, x5)
  · subst h
    simp [effectStep, useEffect5Runner]
  · rw [if_neg h]
    have hne : ¬ (x1 = d.1 ∧ x2 = d.2.1 ∧ x3 = d.2.2.1 ∧ x4 = d.2.2.2.1 ∧ x5 = d.2.2.2.2) := by
      rintro ⟨h1, h2, h3, h4, h5⟩
      exact h (by rw [h1, h2, h3, h4, h5])
    simp [effectStep, useEffect5Runner, hne]

/-- Iterated effect renders starting from a slot with an active cleanup: the
callback fires exactly at the renders whose dependency tuple differs from the
previous render's tuple. -/
lemma effectTrace_fired {T1 T2 T3 T4 T5 C : Type}
    [DecidableEq T1] [DecidableEq T2] [DecidableEq T3] [DecidableEq T4] [DecidableEq T5]
    (cbs : Nat → T1 → T2 → T3 → T4 → T5 → C) (ds : List (T1 × T2 × T3 × T4 × T5)) :
    ∀ (i : Nat) (x1 : T1) (x2 : T2) (x3 : T3) (x4 : T4) (x5 : T5) (c : C),
      ((effectTrace cbs i { o1 := x1, o2 := x2, o3 := x3, o4 := x4, o5 := x5,
                            destructor := some c } ds).2).map Prod.fst
        = changedFlags (x1, x2, x3, x4, x5) ds := by
  induction ds with
  | nil => intro i x1 x2 x3 x4 x5 c; rfl
  | cons d rest ih =>
    intro i x1 x2 x3 x4 x5 c
    by_cases h : d = (x1, x2, x3, x4, x5)
    · subst h
      simp [effectTrace, effectStep_some, changedFlags, ih]
    · simp [effectTrace, effectStep_some, h, changedFlags, ih]

/-! ## Claim theorems -/

/-- Claim C1: for every component instance and every render, the k-th hook
call of the render resolves to slot k of that instance's slot list.  The
`view` prologue resets the frame's counter to 0 (first conjunct); running any
call sequence from a fresh instance resolves call k to slot index k, growing
the list by appending one slot per call exactly at the end (second conjunct:
the resolved index log is `range n`); and running the same call sequence
again over the slots the first render laid down resolves call k to the very
same index k without appending anything (third conjunct), so call k addresses
the identical slot cell in both renders. -/
theorem use_hook_slot_indices_stable {Any : Type} (ds : List (HookCallDesc Any)) :
    (∀ (current : Option (HookState Any)) (st : HookState Any),
        viewBind current (some st) = .ok (some { st with counter := 0 }, current))
    ∧ probeCalls ds { counter := 0, hooks := [] }
        = .ok ({ counter := ds.length,
                 hooks := ds.map (fun d => d.rep.inj (d.step (d.init ()))) },
               List.range ds.length)
    ∧ probeCalls ds { counter := 0, hooks := ds.map (fun d => d.rep.inj (d.step (d.init ()))) }
        = .ok ({ counter := ds.length,
                 hooks := ds.map (fun d => d.rep.inj (d.step (d.step (d.init ())))) },
               List.range ds.length) := by
  refine ⟨fun _ _ => rfl, ?_, ?_⟩
  · have h := probeCalls_fresh ds []
    simpa [List.range_eq_range'] using h
  · have h := probeCalls_existing ds (fun d => d.step (d.init ())) []
    simpa [List.range_eq_range'] using h

/-- Claim C2 (code bug): `change` does replace the stored properties, but the
flag it returns is the EQUALITY comparison `old == new`, not the inequality
the specification describes.  At stored properties 0 and new properties 1
(observably different) it returns `false`; at new properties 0 (unchanged) it
returns `true`. -/
theorem change_returns_equality_at_concrete_input :
    (change ({ props := (0 : Int), hook_state := some { counter := 0, hooks := [] } } : FunctionComponent Int Unit) 1).1.props = 1
    ∧ (change ({ props := (0 : Int), hook_state := some { counter := 0, hooks := [] } } : FunctionComponent Int Unit) 1).2 = false
    ∧ (change ({ props := (0 : Int), hook_state := some { counter := 0, hooks := [] } } : FunctionComponent Int Unit) 0).2 = true := by
  refine ⟨rfl, ?_, ?_⟩ <;> simp [change]

/-- Claim C3: two dispatches enqueued through the `use_reducer` dispatch
before any commit, when committed in enqueue order, leave the slot holding
`R (R S0 a1) a2`: each deferred mutation applies the reducer to the slot state
as of mutation-run time, and each reports that a re-render is warranted.  The
second conjunct instantiates the spec's Scenario B: reducer `add`, initial
state 10, dispatches `[5, -3]`, committed state 12. -/
theorem use_reducer_dispatch_commit_order {Any S Act : Type}
    (rep : TypeRep Any (UseReducerState S)) (R : S → Act → S) (S0 : S) (a1 a2 : Act) :
    (match use_reducer rep R S0 (some { counter := 0, hooks := [] }) with
      | .error e => .error e
      | .ok ((s0, dispatch), st1, m0) =>
        match commitQueue st1.hooks [dispatch a1, dispatch a2] with
        | .error e => .error e
        | .ok (hooksF, flags) => .ok (s0, m0, hooksF, flags))
    = Except.ok (S0, ([] : List (DeferredMutation Any)),
        [rep.inj { current_state := R (R S0 a1) a2 }], [true, true])
    ∧ ∀ (Any2 : Type) (rep2 : TypeRep Any2 (UseReducerState Int)),
      (match use_reducer rep2 (fun s n => s + n) (10 : Int) (some { counter := 0, hooks := [] }) with
        | .error e => .error e
        | .ok ((s0, dispatch), st1, m0) =>
          match commitQueue st1.hooks [dispatch 5, dispatch (-3)] with
          | .error e => .error e
          | .ok (hooksF, flags) => .ok (s0, m0, hooksF, flags))
      = Except.ok (10, ([] : List (DeferredMutation Any2)),
          [rep2.inj { current_state := 12 }], [true, true]) := by
  constructor
  · simp [use_reducer, use_reducer_with_init, use_hook, mkMessage, commitQueue, runMutation,
          rep.proj_inj]
  · intro Any2 rep2
    have h12 : (10 : Int) + 5 + -3 = 12 := by norm_num
    simp [use_reducer, use_reducer_with_init, use_hook, mkMessage, commitQueue, runMutation,
          rep2.proj_inj, h12]

/-- Claim C4: after the `use_state` setter is called with V and the deferred
mutation is executed by `update`, the slot holds V outright (V arbitrary, so
in particular also when it equals the old value), `update` returns `true`,
and the next render of that instance observes V as the current value at the
same hook position, with no further mutations enqueued. -/
theorem use_state_setter_commit {Any T P : Type} (rep : TypeRep Any (UseStateState T))
    (initFn initFn2 : Unit → T) (V : T) (p : P) :
    (match use_state rep initFn (some { counter := 0, hooks := [] }) with
      | .error e => .error e
      | .ok ((v0, setter), st1, m0) =>
        match update ({ props := p, hook_state := some st1 } : FunctionComponent P Any) (setter V) with
        | .error e => .error e
        | .ok (comp1, flag) =>
          match view (fun cur =>
              match use_state rep initFn2 cur with
              | .error e => .error e
              | .ok (r, st, ms) => .ok (r.1, some st, ms)) none comp1 with
          | .error e => .error e
          | .ok (v2, cur2, comp2, m2) =>
            .ok (v0, flag, comp1.hook_state, v2, cur2, comp2.hook_state, m0, m2))
    = Except.ok (initFn (), true, some { counter := 1, hooks := [rep.inj { current := V }] },
        V, none, some { counter := 1, hooks := [rep.inj { current := V }] },
        ([] : List (DeferredMutation Any)), ([] : List (DeferredMutation Any))) := by
  simp [use_state, use_hook, mkMessage, update, runMutation, view, viewBind, viewUnbind,
        rep.proj_inj]

/-- Claim C5: the effect engine's firing discipline.  (i) A render of the
`use_effect5` hook applies exactly `useEffect5Runner` to the slot and
enqueues the bookkeeping mutation exactly when the callback ran.  (ii) On the
initial render the stored snapshots equal the incoming dependencies and no
cleanup is active, so the callback fires once, no cleanup is run, and its
cleanup becomes active with the snapshots at the initial tuple.  (iii) With
an active cleanup, a render fires exactly when the dependency tuple differs
(pairwise) from the stored snapshot; on a firing the stored cleanup is run
(exactly that once — it is simultaneously replaced by the fresh cleanup) and
the snapshots are updated to the new tuple; otherwise nothing runs and the
slot is unchanged.  (iv) Across consecutive renders the firing pattern is
exactly the pointwise dependency-change pattern. -/
theorem use_effect5_firing_discipline {Any T1 T2 T3 T4 T5 C : Type}
    [DecidableEq T1] [DecidableEq T2] [DecidableEq T3] [DecidableEq T4] [DecidableEq T5]
    (rep : TypeRep Any (UseEffectState T1 T2 T3 T4 T5 C)) :
    (∀ (cb : T1 → T2 → T3 → T4 → T5 → C) (o1 : T1) (o2 : T2) (o3 : T3) (o4 : T4) (o5 : T5)
        (s : UseEffectState T1 T2 T3 T4 T5 C),
      use_effect5 rep cb o1 o2 o3 o4 o5 (some { counter := 0, hooks := [rep.inj s] })
        = .ok (((useEffect5Runner cb o1 o2 o3 o4 o5 s).2.1,
                (useEffect5Runner cb o1 o2 o3 o4 o5 s).2.2),
               { counter := 1, hooks := [rep.inj (useEffect5Runner cb o1 o2 o3 o4 o5 s).1] },
               if (useEffect5Runner cb o1 o2 o3 o4 o5 s).2.1 then
                 [mkMessage rep 0 (fun x => (x, true))] else []))
    ∧ (∀ (cb : T1 → T2 → T3 → T4 → T5 → C) (d : T1 × T2 × T3 × T4 × T5),
      effectStep cb d { o1 := d.1, o2 := d.2.1, o3 := d.2.2.1, o4 := d.2.2.2.1, o5 := d.2.2.2.2,
                        destructor := none }
        = ({ o1 := d.1, o2 := d.2.1, o3 := d.2.2.1, o4 := d.2.2.2.1, o5 := d.2.2.2.2,
             destructor := some (cb d.1 d.2.1 d.2.2.1 d.2.2.2.1 d.2.2.2.2) }, true, []))
    ∧ (∀ (cb : T1 → T2 → T3 → T4 → T5 → C) (d : T1 × T2 × T3 × T4 × T5)
        (x1 : T1) (x2 : T2) (x3 : T3) (x4 : T4) (x5 : T5) (c : C),
      effectStep cb d { o1 := x1, o2 := x2, o3 := x3, o4 := x4, o5 := x5, destructor := some c }
        = if d = (x1, x2, x3, x4, x5) then
            ({ o1 := x1, o2 := x2, o3 := x3, o4 := x4, o5 := x5, destructor := some c }, false, [])
          else
            ({ o1 := d.1, o2 := d.2.1, o3 := d.2.2.1, o4 := d.2.2.2.1, o5 := d.2.2.2.2,
               destructor := some (cb d.1 d.2.1 d.2.2.1 d.2.2.2.1 d.2.2.2.2) }, true, [c]))
    ∧ (∀ (cbs : Nat → T1 → T2 → T3 → T4 → T5 → C) (i : Nat)
        (x1 : T1) (x2 : T2) (x3 : T3) (x4 : T4) (x5 : T5) (c : C)
        (ds : List (T1 × T2 × T3 × T4 × T5)),
      ((effectTrace cbs i { o1 := x1, o2 := x2, o3 := x3, o4 := x4, o5 := x5,
                            destructor := some c } ds).2).map Prod.fst
        = changedFlags (x1, x2, x3, x4, x5) ds) := by
  refine ⟨?_, ?_, ?_, ?_⟩
  · intro cb o1 o2 o3 o4 o5 s
    simp [use_effect5, use_hook, mkMessage, rep.proj_inj]
  · intro cb d
    simp [effectStep, useEffect5Runner]
  · intro cb d x1 x2 x3 x4 x5 c
    exact effectStep_some cb d x1 x2 x3 x4 x5 c
  · intro cbs i x1 x2 x3 x4 x5 c ds
    exact effectTrace_fired cbs ds i x1 x2 x3 x4 x5 c

/-- Claim C6, counterexample: a render of instance A whose body synchronously
renders a different instance B binds B's frame while A's frame is already the
active binding, yet the whole nested render SUCCEEDS — it does not fail fast
with a fatal error as the claim states. -/
theorem nested_bind_different_instance_succeeds :
    nestedRender none
        ({ props := (), hook_state := some { counter := 0, hooks := [] } } : FunctionComponent Unit Unit)
        { props := (), hook_state := some { counter := 0, hooks := [] } }
      = .ok ({ props := (), hook_state := some { counter := 0, hooks := [] } }, none,
             { props := (), hook_state := some { counter := 0, hooks := [] } }, []) := rfl

/-- Claim C6, amended: re-entering `view` on an instance whose frame is
currently vacated (its parked `hook_state` holds `none` because that very
instance is mid-render at top level) fails fast with the unwrap panic; but
binding a DIFFERENT instance's frame while one is active does not fail: the
swap installs the inner instance's own frame (counter reset) for the inner
render and the unbind restores the outer binding and both parked frames. -/
theorem view_reentrancy_behavior {Any P : Type} (current : Option (HookState Any))
    (stA stB : HookState Any) (pA pB : P) :
    viewBind current (none : Option (HookState Any))
        = .error "called Option::unwrap() on a None value"
    ∧ nestedRender current { props := pA, hook_state := some stA }
        { props := pB, hook_state := some stB }
        = .ok ({ props := pA, hook_state := some { stA with counter := 0 } }, current,
               { props := pB, hook_state := some { stB with counter := 0 } }, []) :=
  ⟨rfl, rfl⟩

/-- Claim C7: a hook call whose resolved slot holds a different stored type
than the caller expects fails with the unrecoverable "Incompatible hook type"
error, both synchronously during the render (first conjunct) and when a
deferred mutation later re-resolves the slot (second conjunct); and a hook
call with no bound frame fails fatally rather than returning a value (third
conjunct). -/
theorem hook_type_mismatch_and_unbound_errors {Any σ R : Type} (rep : TypeRep Any σ)
    (runner : σ → ((σ → σ × Bool) → DeferredMutation Any) → σ × R × List (DeferredMutation Any))
    (init : Unit → σ) (a : Any) (rest : List Any) (pc : σ → σ × Bool)
    (h : rep.proj a = none) :
    use_hook rep runner init (some { counter := 0, hooks := a :: rest })
        = .error "Incompatible hook type. Hooks must always be called in the same order"
    ∧ runMutation (a :: rest) (mkMessage rep 0 pc)
        = .error "Incompatible hook type. Hooks must always be called in the same order"
    ∧ use_hook rep runner init none
        = .error "No current hook. Hooks can only be called inside functional components" := by
  refine ⟨?_, ?_, rfl⟩
  · simp [use_hook, h, Nat.lt_irrefl]
  · simp [runMutation, mkMessage, h]

/-- Witness for C7 at a concrete mismatched slot: the erased payload is
`Int ⊕ Bool`, the slot holds the `Bool` payload `Sum.inr true`, and the
caller expects a `use_state` slot over `Int`. -/
theorem hook_type_mismatch_witness :
    use_hook sumStateRep (fun s _ => (s, (), [])) (fun _ => { current := 0 })
        (some { counter := 0, hooks := [Sum.inr true] })
        = .error "Incompatible hook type. Hooks must always be called in the same order"
    ∧ runMutation [Sum.inr true] (mkMessage sumStateRep 0 (fun s => (s, true)))
        = .error "Incompatible hook type. Hooks must always be called in the same order"
    ∧ use_hook sumStateRep (fun s _ => (s, (), [])) (fun _ => { current := 0 })
        (none : Option (HookState (Int ⊕ Bool)))
        = .error "No current hook. Hooks can only be called inside functional components" :=
  hook_type_mismatch_and_unbound_errors sumStateRep (fun s _ => (s, (), []))
    (fun _ => { current := 0 }) (Sum.inr true) [] (fun s => (s, true)) rfl

/-- Claim C8: invoking a trigger (a `use_state` setter, a `use_reducer`
dispatch, or any trigger built by `use_hook`) only enqueues one deferred unit
of work through the host bridge and never touches any slot: the component —
including every slot's stored value — after the call equals the component
before (first conjunct); a render itself enqueues nothing through the
`use_state`/`use_reducer` runners, and the setter and dispatch produce exactly
the deferred-mutation messages bound to their slot (second, third conjunct). -/
theorem triggers_only_enqueue {Any : Type} :
    (∀ (P : Type) (comp : FunctionComponent P Any) (q : List (DeferredMutation Any))
        (m : DeferredMutation Any),
      invokeTrigger comp q m = (comp, q ++ [m]))
    ∧ (∀ (T : Type) (rep : TypeRep Any (UseStateState T)) (initFn : Unit → T) (V : T),
      (match use_state rep initFn (some { counter := 0, hooks := [] }) with
        | .error e => .error e
        | .ok ((_, setter), _, m0) => .ok (m0, setter V))
      = Except.ok (([] : List (DeferredMutation Any)),
          mkMessage rep 0 (fun _state => ({ current := V }, true))))
    ∧ (∀ (S Act : Type) (rep : TypeRep Any (UseReducerState S)) (R : S → Act → S)
        (S0 : S) (a : Act),
      (match use_reducer rep R S0 (some { counter := 0, hooks := [] }) with
        | .error e => .error e
        | .ok ((_, dispatch), _, m0) => .ok (m0, dispatch a))
      = Except.ok (([] : List (DeferredMutation Any)),
          mkMessage rep 0 (fun ihc => ({ current_state := R ihc.current_state a }, true)))) := by
  refine ⟨fun _ _ _ _ => rfl, ?_, ?_⟩
  · intro T rep initFn V
    simp [use_state, use_hook, mkMessage, rep.proj_inj]
  · intro S Act rep R S0 a
    simp [use_reducer, use_reducer_with_init, use_hook, mkMessage, rep.proj_inj]

/-- Claim C9: `use_ref` at a fixed call position returns the identical shared
cell on every render of the instance: the first render constructs the cell
once via the factory; a second render — with an arbitrary, different factory,
showing the factory is not consulted again — returns the very same cell and
leaves the frame's slots untouched; neither render enqueues any deferred
mutation, so no re-render is ever signalled. -/
theorem use_ref_identity_stable {Any RC T : Type} (rep : TypeRep Any RC)
    (rcNew rcNew2 : T → RC) (iv1 iv2 : Unit → T) :
    (match use_ref rep rcNew iv1 (some { counter := 0, hooks := [] }) with
      | .error e => .error e
      | .ok (cell1, st1, m1) =>
        match use_ref rep rcNew2 iv2 (some { counter := 0, hooks := st1.hooks }) with
        | .error e => .error e
        | .ok (cell2, st2, m2) => .ok (cell1, cell2, st1, st2, m1, m2))
    = Except.ok (rcNew (iv1 ()), rcNew (iv1 ()),
        ({ counter := 1, hooks := [rep.inj (rcNew (iv1 ()))] } : HookState Any),
        ({ counter := 1, hooks := [rep.inj (rcNew (iv1 ()))] } : HookState Any),
        ([] : List (DeferredMutation Any)), ([] : List (DeferredMutation Any))) := by
  simp [use_ref, use_hook, mkMessage, rep.proj_inj]

/-- Claim C10: when the `use_effect5` callback ran in a render (e.g. the
initial render, first conjunct), exactly one deferred mutation is enqueued,
namely the bookkeeping message whose mutation ignores the slot; executing it
through `update` leaves the component — the effect slot included — exactly as
it was, yet returns `true` (second conjunct); when the callback did not run
(unchanged dependencies with an active cleanup), nothing is enqueued (third
conjunct). -/
theorem effect_commit_mutation_noop_true {Any T1 T2 T3 T4 T5 C P : Type}
    [DecidableEq T1] [DecidableEq T2] [DecidableEq T3] [DecidableEq T4] [DecidableEq T5]
    (rep : TypeRep Any (UseEffectState T1 T2 T3 T4 T5 C))
    (cb cb2 : T1 → T2 → T3 → T4 → T5 → C)
    (o1 : T1) (o2 : T2) (o3 : T3) (o4 : T4) (o5 : T5) (c : C) (p : P) :
    use_effect5 rep cb o1 o2 o3 o4 o5 (some { counter := 0, hooks := [] })
      = Except.ok ((true, []),
          { counter := 1,
            hooks := [rep.inj { o1 := o1, o2 := o2, o3 := o3, o4 := o4, o5 := o5,
                                destructor := some (cb o1 o2 o3 o4 o5) }] },
          [mkMessage rep 0 (fun x => (x, true))])
    ∧ (∀ (s : UseEffectState T1 T2 T3 T4 T5 C) (k : Nat),
      update ({ props := p, hook_state := some { counter := k, hooks := [rep.inj s] } } :
            FunctionComponent P Any)
          (mkMessage rep 0 (fun x => (x, true)))
        = Except.ok ({ props := p, hook_state := some { counter := k, hooks := [rep.inj s] } },
            true))
    ∧ use_effect5 rep cb2 o1 o2 o3 o4 o5
        (some { counter := 0,
                hooks := [rep.inj { o1 := o1, o2 := o2, o3 := o3, o4 := o4, o5 := o5,
                                    destructor := some c }] })
      = Except.ok ((false, []),
          { counter := 1,
            hooks := [rep.inj { o1 := o1, o2 := o2, o3 := o3, o4 := o4, o5 := o5,
                                destructor := some c }] },
          []) := by
  refine ⟨?_, ?_, ?_⟩
  · simp [use_effect5, use_hook, useEffect5Runner, mkMessage, rep.proj_inj]
  · intro s k
    simp [update, runMutation, mkMessage, rep.proj_inj]
  · simp [use_effect5, use_hook, useEffect5Runner, mkMessage, rep.proj_inj]

end YewHooks
